import Mathlib

/-!
# carrierroute: `route_config.c`

A shallow embedding of `load_config`, `parse_config`, `save_config` and
`save_route_data_recursor` from `modules/carrierroute/route_config.c`, and the
properties of the configuration codec proved (or refuted) on it.

Conventions of the embedding.

* A `str` (`s`, `len`) is a `String`; `len` is its length.
* A C `double` is carried as its 64-bit pattern; no function here computes with it.
* A linked list (`rule_list`, `next`) is a `List`; a nullable pointer is an `Option`.
* An `int` is an `Int`; where `load_config` assigns the `long` of `cfg_getint` to an `int`
  the value is reduced modulo 2^32 into the range of `int`.
* A `fprintf(outfile, fmt, arg)` call is a `Write`: the format string, verbatim, and
  the argument. None of the calls has its result inspected, so the sequence of calls
  issued is a function of the route data alone.
-/

namespace CarrierRoute

/-! ## Data model (the fields the code reads) -/

/-- A C `double`, by its bit pattern. -/
structure double where
  bits : Nat
  deriving DecidableEq, Repr

/-- The rule record `struct route_rule`; the `next` link is the tail of the list holding it. -/
structure route_rule where
  prefix_ : String
  host : String
  prob : double
  hash_index : Int
  status : Int
  strip : Int
  local_prefix : String
  local_suffix : String
  comment : String
  deriving DecidableEq, Repr

/-- The trie node `struct route_tree_item`: `rule_list`, `max_locdb` and the child
slots `nodes[0..9]`. -/
inductive route_tree_item where
  | mk (rule_list : List route_rule) (max_locdb : Int)
      (nodes : List (Option route_tree_item)) : route_tree_item

/-- Field `rule_list`. -/
def route_tree_item.rule_list : route_tree_item → List route_rule
  | .mk rl _ _ => rl

/-- Field `max_locdb`. -/
def route_tree_item.max_locdb : route_tree_item → Int
  | .mk _ m _ => m

/-- Field `nodes`. -/
def route_tree_item.nodes : route_tree_item → List (Option route_tree_item)
  | .mk _ _ ns => ns

/-- The domain tree `struct route_tree`: `name` and the root `tree`. -/
structure route_tree where
  name : String
  tree : route_tree_item

/-- The carrier `struct carrier_tree`: the `trees` array, its `tree_num`, and the
`name` and `id` it was created with. -/
structure carrier_tree where
  trees : List (Option route_tree)
  tree_num : Nat
  name : String
  id : Int

/-- The route data `struct rewrite_data`: the `carriers` array (a NULL array is the
empty list) and `tree_num`. -/
structure rewrite_data where
  carriers : List (Option carrier_tree)
  tree_num : Int

/-! ## Output stream -/

/-- The argument of one `fprintf` call. -/
inductive Arg where
  | none : Arg
  | s (v : String) : Arg
  | i (v : Int) : Arg
  | f (v : double) : Arg
  deriving DecidableEq, Repr

/-- One `fprintf(outfile, fmt, arg)` call. -/
structure Write where
  fmt : String
  arg : Arg
  deriving DecidableEq, Repr

/-! ## `save_route_data_recursor` and `save_config` -/

/-- The title written for a prefix block: `rr->prefix.len ? rr->prefix.s : "NULL"`. -/
def prefix_title (rr : route_rule) : String :=
  if rr.prefix_.length ≠ 0 then rr.prefix_ else "NULL"

/-- The title written for a target block: `rr->host.len ? rr->host.s : "NULL"`. -/
def target_title (rr : route_rule) : String :=
  if rr.host.length ≠ 0 then rr.host else "NULL"

/-- The body of the `while (rr)` loop of `save_route_data_recursor`: the calls made
for one rule. -/
def save_rule (rr : route_rule) : List Write :=
  [⟨"\t\ttarget %s \x7b\n", .s (target_title rr)⟩,
   ⟨"\t\t\tprob = %f\n", .f rr.prob⟩,
   ⟨"\t\t\thash_index = %i\n", .i rr.hash_index⟩,
   ⟨"\t\t\tstatus = %i\n", .i rr.status⟩]
  ++ (if rr.strip > 0 then [⟨"\t\t\tstrip = \"%i\"\n", .i rr.strip⟩] else [])
  ++ (if rr.local_prefix.length ≠ 0 then
        [⟨"\t\t\trewrite_prefix = \"%s\"\n", .s rr.local_prefix⟩] else [])
  ++ (if rr.local_suffix.length ≠ 0 then
        [⟨"\t\t\trewrite_suffix: \"%s\"\n", .s rr.local_suffix⟩] else [])
  ++ (if rr.comment.length ≠ 0 then
        [⟨"\t\t\tcomment = \"%s\"\n", .s rr.comment⟩] else [])
  ++ [⟨"\t\t\x7d\n", .none⟩]

/-- The `while (rr)` loop, advancing by `rr = rr->next`. -/
def save_rule_list : List route_rule → List Write
  | [] => []
  | rr :: next => save_rule rr ++ save_rule_list next

/-- The `if (rt->rule_list)` part of `save_route_data_recursor`. -/
def save_rules_of_node (rule_list : List route_rule) (max_locdb : Int) : List Write :=
  match rule_list with
  | [] => []
  | rr :: next =>
    [⟨"\tprefix %s \x7b\n", .s (prefix_title rr)⟩,
     ⟨"\t\tmax_locdb = %i\n\n", .i max_locdb⟩]
    ++ save_rule_list (rr :: next)
    ++ [⟨"\t\x7d\n", .none⟩]

mutual
/-- The function `save_route_data_recursor`: the return value and the calls issued. -/
def save_route_data_recursor : route_tree_item → Int × List Write
  | .mk rule_list max_locdb nodes =>
    let r := save_nodes 10 nodes
    (r.1, save_rules_of_node rule_list max_locdb ++ r.2)
/-- The loop `for (i = 0; i < 10; i++)` over `rt->nodes`, `left` slots still to visit:
a recursive call that returns a negative value ends the function with `-1`. -/
def save_nodes : Nat → List (Option route_tree_item) → Int × List Write
  | 0, _ => (0, [])
  | _ + 1, [] => (0, [])
  | left + 1, none :: rest => save_nodes left rest
  | left + 1, some child :: rest =>
    let c := save_route_data_recursor child
    if c.1 < 0 then (-1, c.2)
    else
      let r := save_nodes left rest
      (r.1, c.2 ++ r.2)
end

/-- The loop `for (j = 0; j < rd->carriers[i]->tree_num; j++)` of `save_config`, with
`left` iterations to go over the remaining slots of `trees`. The result is `none` when
the loop reads a slot that is NULL or past the array (the C code dereferences it). -/
def save_trees : Nat → List (Option route_tree) → Option (Int × List Write)
  | 0, _ => some (0, [])
  | _ + 1, [] => none
  | _ + 1, none :: _ => none
  | left + 1, some t :: rest =>
    let c := save_route_data_recursor t.tree
    if c.1 < 0 then some (-1, ⟨"domain %s \x7b\n", .s t.name⟩ :: c.2)
    else
      match save_trees left rest with
      | none => none
      | some r =>
        some (r.1, ⟨"domain %s \x7b\n", .s t.name⟩ :: c.2 ++ ⟨"\x7d\n\n", .none⟩ :: r.2)

/-- The function `save_config`. `fopen_ok` says whether `fopen(config_file, "w")` returns a
stream. The result holds the return value and, when the file was opened, the calls
issued on it; it is `none` when the code dereferences a NULL or missing slot. -/
def save_config (rd : rewrite_data) (fopen_ok : Bool) : Option (Int × Option (List Write)) :=
  if fopen_ok = false then some (-1, none)
  else if rd.tree_num ≥ 1 then
    match rd.carriers with
    | some ct :: _ =>
      match save_trees ct.tree_num ct.trees with
      | none => none
      | some r => some (r.1, some r.2)
    | _ => none
  else some (0, some [])

mutual
/-- Pre-order listing of a route tree: the node, then its children in digit order. -/
def preorder : route_tree_item → List route_tree_item
  | .mk rule_list max_locdb nodes => .mk rule_list max_locdb nodes :: preorder_slots 10 nodes
/-- Pre-order listing of the subtrees in the first `left` child slots. -/
def preorder_slots : Nat → List (Option route_tree_item) → List route_tree_item
  | 0, _ => []
  | _ + 1, [] => []
  | left + 1, none :: rest => preorder_slots left rest
  | left + 1, some child :: rest => preorder child ++ preorder_slots left rest
end

/-- Whether a call writes an option line: a line indented by three tabs. -/
def is_option_line (w : Write) : Bool :=
  w.fmt.toList.take 3 == ['\t', '\t', '\t']

/-- Whether a list of calls is one target block for the rule: the `target` header with
the host of the rule (the sentinel for an empty host), the closing brace of a target
last, and in between option lines only, among them the `prob`, `hash_index` and `status`
of the rule. -/
def is_target_block (rr : route_rule) (b : List Write) : Bool :=
  b.head? == some ⟨"\t\ttarget %s \x7b\n", .s (if rr.host = "" then "NULL" else rr.host)⟩
    && 2 ≤ b.length
    && b.getLast? == some ⟨"\t\t\x7d\n", .none⟩
    && b.tail.dropLast.all is_option_line
    && b.tail.dropLast.contains ⟨"\t\t\tprob = %f\n", .f rr.prob⟩
    && b.tail.dropLast.contains ⟨"\t\t\thash_index = %i\n", .i rr.hash_index⟩
    && b.tail.dropLast.contains ⟨"\t\t\tstatus = %i\n", .i rr.status⟩

/-- The prefix block of a node: the header with the title of the first rule, the
node's `max_locdb`, one target block per rule in list order, and the closing brace. -/
def prefix_block (t : route_tree_item) : List Write :=
  match t.rule_list.head? with
  | none => []
  | some rr =>
    [⟨"\tprefix %s \x7b\n", .s (prefix_title rr)⟩,
     ⟨"\t\tmax_locdb = %i\n\n", .i t.max_locdb⟩]
    ++ (t.rule_list.map save_rule).flatten
    ++ [⟨"\t\x7d\n", .none⟩]

/-- The blocks of a list of nodes: one prefix block per node holding a rule. -/
def blocks_of (l : List route_tree_item) : List Write :=
  ((l.filter fun t => !t.rule_list.isEmpty).map prefix_block).flatten

/-- The domain block of a domain tree: header, the blocks of the tree, closing brace. -/
def domain_block (t : route_tree) : List Write :=
  ⟨"domain %s \x7b\n", .s t.name⟩ :: (save_route_data_recursor t.tree).2
    ++ [⟨"\x7d\n\n", .none⟩]

/-! ## The option table of `parse_config` and the grammar of a target option line -/

/-- The value types of the option table. -/
inductive cfg_type where
  | CFGT_INT
  | CFGT_FLOAT
  | CFGT_STR
  deriving DecidableEq, Repr

/-- The table `target_opts` of `parse_config`: name and type of each option. -/
def target_opts : List (String × cfg_type) :=
  [("comment", .CFGT_STR), ("strip", .CFGT_INT), ("rewrite_prefix", .CFGT_STR),
   ("prob", .CFGT_FLOAT), ("hash_index", .CFGT_INT), ("rewrite_suffix", .CFGT_STR),
   ("status", .CFGT_INT)]

/-- How a value of each type is written in the record grammar: an integer and a
float bare, a string between double quotes. -/
def value_form : cfg_type → String
  | .CFGT_INT => "%i"
  | .CFGT_FLOAT => "%f"
  | .CFGT_STR => "\"%s\""

/-- Whether the argument of a call has the type of the option. -/
def arg_has_type : cfg_type → Arg → Bool
  | .CFGT_INT, .i _ => true
  | .CFGT_FLOAT, .f _ => true
  | .CFGT_STR, .s _ => true
  | _, _ => false

/-- An option line of the record grammar: `<name> = <value>` for an option of the
table, the value written in the form of the option's type. -/
def grammar_option_line (w : Write) : Bool :=
  target_opts.any fun o =>
    w.fmt == "\t\t\t" ++ o.1 ++ " = " ++ value_form o.2 ++ "\n" && arg_has_type o.2 w.arg

/-- The option lines of a target block: all calls but the header and the closing brace. -/
def option_lines (block : List Write) : List Write :=
  block.tail.dropLast

/-! ## The parsed record and `load_config` -/

/-- A parsed `target` section: its title and the value of each option of `target_opts`
as `cfg_getint`, `cfg_getfloat` and `cfg_getstr` return it (the default of the table when
the section does not set it; the default of a string option is the NULL pointer). -/
structure cfg_target where
  title : String
  comment : Option String
  strip : Int
  rewrite_prefix : Option String
  prob : double
  hash_index : Int
  rewrite_suffix : Option String
  status : Int
  deriving DecidableEq, Repr

/-- A parsed `prefix` section: title, `target` sections in order, `max_locdb`. -/
structure cfg_prefix where
  title : String
  targets : List cfg_target
  max_locdb : Int
  deriving DecidableEq, Repr

/-- A parsed `domain` section: title and `prefix` sections in order. -/
structure cfg_domain where
  title : String
  prefixes : List cfg_prefix
  deriving DecidableEq, Repr

/-- The parsed configuration `cfg_t`: the `domain` sections in order. -/
structure cfg_t where
  domains : List cfg_domain
  deriving DecidableEq, Repr

/-- The arguments of one `add_route` call, after the route data. -/
structure route_args where
  carrier_id : Int
  domain : String
  scan_prefix : Option String
  max_locdb : Int
  prob : double
  rewrite_hostpart : Option String
  strip : Int
  rewrite_local_prefix : Option String
  rewrite_local_suffix : Option String
  status : Int
  hash_index : Int
  comment : Option String
  deriving DecidableEq, Repr

/-- What `load_config` uses and this file does not define: the global `default_tree`,
the macro `SP_EMPTY_PREFIX`, and the functions `add_carrier_tree` (whether it returned a
carrier, and the route data it leaves) and `add_route` (its return value, and the route
data it leaves). -/
structure Externals where
  default_tree : String
  SP_EMPTY_PREFIX : String
  add_carrier_tree : String → Int → rewrite_data → Nat → Bool × rewrite_data
  add_route : rewrite_data → route_args → Int × rewrite_data

/-- The lower-case form of a character, as `tolower` in the C locale. -/
def tolower (c : Char) : Char :=
  if 65 ≤ c.toNat ∧ c.toNat ≤ 90 then Char.ofNat (c.toNat + 32) else c

/-- The comparison of `strcasecmp` on the characters of two strings. -/
def strcasecmp_chars : List Char → List Char → Int
  | [], [] => 0
  | [], b :: _ => -((tolower b).toNat : Int)
  | a :: _, [] => ((tolower a).toNat : Int)
  | a :: as, b :: bs =>
    if tolower a = tolower b then strcasecmp_chars as bs
    else ((tolower a).toNat : Int) - ((tolower b).toNat : Int)

/-- The library function `strcasecmp`: zero exactly when the strings are equal up to
the case of ASCII letters. -/
def strcasecmp (a b : String) : Int :=
  strcasecmp_chars a.toList b.toList

/-- A section title after `if (strcasecmp(title, SP_EMPTY_PREFIX) == 0) title = NULL`,
which `load_config` applies to the prefix title and to the target title. -/
def null_if_sentinel (E : Externals) (title : String) : Option String :=
  if strcasecmp title E.SP_EMPTY_PREFIX = 0 then none else some title

/-- The conversion of the `long` that `cfg_getint` returns to the `int` variable
`load_config` assigns it to (`max_locdb`, `strip`, `hash_index`, `status`): the value
modulo 2^32 that lies in the range of a 32-bit `int`. -/
def long_to_int (v : Int) : Int :=
  (v + 2147483648) % 4294967296 - 2147483648

/-- The loop `for (k = 0; k < o; k++)` of `load_config` over the `target` sections of a
prefix: the first `add_route` that returns a negative value ends `load_config` with `-1`.
`max_locdb` is the `int` variable set before the loop; `strip`, `hash_index` and `status`
are the `int` variables the options are read into. -/
def load_targets (E : Externals) (domain : String) (prefix_ : Option String)
    (max_locdb : Int) : List cfg_target → rewrite_data → Int × rewrite_data
  | [], rd => (0, rd)
  | t :: rest, rd =>
    let r := E.add_route rd
      ⟨1, domain, prefix_, max_locdb, t.prob, null_if_sentinel E t.title,
        long_to_int t.strip, t.rewrite_prefix, t.rewrite_suffix, long_to_int t.status,
        long_to_int t.hash_index, t.comment⟩
    if r.1 < 0 then (-1, r.2) else load_targets E domain prefix_ max_locdb rest r.2

/-- The loop `for (j = 0; j < m; j++)` of `load_config` over the `prefix` sections. -/
def load_prefixes (E : Externals) (domain : String) :
    List cfg_prefix → rewrite_data → Int × rewrite_data
  | [], rd => (0, rd)
  | p :: rest, rd =>
    let r := load_targets E domain (null_if_sentinel E p.title) (long_to_int p.max_locdb)
      p.targets rd
    if r.1 < 0 then r else load_prefixes E domain rest r.2

/-- The loop `for (i = 0; i < n; i++)` of `load_config` over the `domain` sections. -/
def load_domains (E : Externals) : List cfg_domain → rewrite_data → Int × rewrite_data
  | [], rd => (0, rd)
  | d :: rest, rd =>
    let r := load_prefixes E d.title d.prefixes rd
    if r.1 < 0 then r else load_domains E rest r.2

/-- The call `memset(rd->carriers[0]->trees, 0, sizeof(struct route_tree *) * n)`:
`none` when `carriers[0]` is NULL or its `trees` array has fewer than `n` slots. -/
def memset_trees (rd : rewrite_data) (n : Nat) : Option rewrite_data :=
  match rd.carriers with
  | some ct :: rest =>
    if n ≤ ct.trees.length then
      some { rd with
        carriers := some { ct with trees := List.replicate n none ++ ct.trees.drop n } :: rest }
    else none
  | _ => none

/-- The function `load_config`. `parsed` is what `parse_config()` returned and
`shm_malloc_ok` whether `shm_malloc` returned memory. The result holds the return value
and the route data `rd` points to on return; it is `none` when the `memset` on the trees
of `carriers[0]` is undefined. -/
def load_config (E : Externals) (parsed : Option cfg_t) (shm_malloc_ok : Bool)
    (rd : rewrite_data) : Option (Int × rewrite_data) :=
  match parsed with
  | none => some (-1, rd)
  | some cfg =>
    if shm_malloc_ok = false then some (-1, { rd with carriers := [] })
    else
      let n := cfg.domains.length
      let a := E.add_carrier_tree E.default_tree 1 { rd with carriers := [none], tree_num := 1 } n
      if a.1 = false then some (-1, a.2)
      else
        match memset_trees a.2 n with
        | none => none
        | some rd2 => some (load_domains E cfg.domains rd2)

/-! ## Reference definitions for what `load_config` adds -/

/-- The value of an integer option as a 32-bit `int`: the representative of the
value modulo 2^32 between -2^31 and 2^31 - 1; a value in that range is itself. -/
def as_int (v : Int) : Int :=
  Int.bmod v 4294967296

/-- The routes of a parsed record in document order: one per `target` section, with
carrier id 1, the title of its domain, the title of its prefix (none when the title
compares equal to the sentinel), the `max_locdb` of its prefix as an `int`, and the
options of the target, the host being its title (none for the sentinel) and the
integer options taken as `int`. -/
def routes_of_cfg (E : Externals) (cfg : cfg_t) : List route_args :=
  (cfg.domains.map fun d =>
    (d.prefixes.map fun p =>
      p.targets.map fun t =>
        (⟨1, d.title,
          if strcasecmp p.title E.SP_EMPTY_PREFIX = 0 then none else some p.title,
          as_int p.max_locdb, t.prob,
          if strcasecmp t.title E.SP_EMPTY_PREFIX = 0 then none else some t.title,
          as_int t.strip, t.rewrite_prefix, t.rewrite_suffix,
          as_int t.status, as_int t.hash_index, t.comment⟩ : route_args)).flatten).flatten

/-- Adding a list of routes one after the other, stopping at the first `add_route`
that returns a negative value. -/
def add_all (E : Externals) : List route_args → rewrite_data → Int × rewrite_data
  | [], rd => (0, rd)
  | a :: rest, rd =>
    let r := E.add_route rd a
    if r.1 < 0 then (-1, r.2) else add_all E rest r.2

/-! ## The functions of `carrier_tree.c` that `load_config` calls -/

/-- Modelled from the spec: a freshly created trie node (`create_route_tree_item`, not in
this file): no rule, ten empty child slots, unbounded fallback depth. -/
def empty_node : route_tree_item :=
  .mk [] (-1) (List.replicate 10 none)

/-- The digit a character of a prefix stands for. -/
def digit_of (c : Char) : Option Nat :=
  if 48 ≤ c.toNat ∧ c.toNat ≤ 57 then some (c.toNat - 48) else none

/-- Modelled from the spec: adding a rule below a node (`add_route_to_tree`, not in this
file). It descends and creates nodes digit by digit, attaches `max_locdb` to the node
reached and appends the rule to its rule list; it fails on a character that is no digit
and on a rule whose `(prefix, host)` the node already holds. -/
def add_route_to_tree (rule : route_rule) (max_locdb : Int) :
    List Char → route_tree_item → Option route_tree_item
  | [], .mk rl _ ns =>
    if rl.any (fun r => r.prefix_ == rule.prefix_ && r.host == rule.host) then none
    else some (.mk (rl ++ [rule]) max_locdb ns)
  | c :: cs, .mk rl m ns =>
    match digit_of c with
    | none => none
    | some d =>
      match add_route_to_tree rule max_locdb cs ((ns.getD d none).getD empty_node) with
      | none => none
      | some child => some (.mk rl m (ns.set d (some child)))

/-- Modelled from the spec: the domain tree of a carrier by name, created in the first
free slot when the carrier has none of that name (`get_route_tree`, not in this file),
and the rule added to it; it fails when no slot is free or the rule cannot be added. -/
def add_route_to_domain (rule : route_rule) (max_locdb : Int) (domain : String) :
    List (Option route_tree) → Option (List (Option route_tree))
  | [] => none
  | none :: rest =>
    (add_route_to_tree rule max_locdb rule.prefix_.toList empty_node).map
      fun t => some ⟨domain, t⟩ :: rest
  | some rt :: rest =>
    if rt.name = domain then
      (add_route_to_tree rule max_locdb rule.prefix_.toList rt.tree).map
        fun t => some ⟨rt.name, t⟩ :: rest
    else (add_route_to_domain rule max_locdb domain rest).map fun l => some rt :: l

/-- Modelled from the spec: the rule added to the carrier of the given id, the first
one in the array (`get_carrier_tree`, not in this file); it fails when there is none. -/
def add_route_to_carrier (rule : route_rule) (a : route_args) :
    List (Option carrier_tree) → Option (List (Option carrier_tree))
  | [] => none
  | none :: rest => (add_route_to_carrier rule a rest).map fun l => none :: l
  | some ct :: rest =>
    if ct.id = a.carrier_id then
      (add_route_to_domain rule a.max_locdb a.domain ct.trees).map
        fun ts => some { ct with trees := ts } :: rest
    else (add_route_to_carrier rule a rest).map fun l => some ct :: l

/-- Modelled from the spec: the function `add_route` of `carrier_tree.c`, which is not in
this file. A NULL string argument gives an empty field of the rule. On failure the
result is negative and the route data is as it was. -/
def add_route (rd : rewrite_data) (a : route_args) : Int × rewrite_data :=
  let rule : route_rule :=
    ⟨a.scan_prefix.getD "", a.rewrite_hostpart.getD "", a.prob, a.hash_index, a.status,
      a.strip, a.rewrite_local_prefix.getD "", a.rewrite_local_suffix.getD "",
      a.comment.getD ""⟩
  match add_route_to_carrier rule a rd.carriers with
  | none => (-1, rd)
  | some cs => (0, { rd with carriers := cs })

/-- Modelled from the spec: placing a new carrier in the first NULL slot of an array. -/
def place_carrier (ct : carrier_tree) :
    List (Option carrier_tree) → Option (List (Option carrier_tree))
  | [] => none
  | none :: rest => some (some ct :: rest)
  | some c :: rest => (place_carrier ct rest).map fun l => some c :: l

/-- Modelled from the spec: the function `add_carrier_tree` of `carrier_tree.c`, which is
not in this file. It returns the carrier of the given id when the route data has one,
and otherwise creates it, with `trees` empty domain slots, in the first free slot of
`carriers`; it fails when no slot is free. -/
def add_carrier_tree (name : String) (id : Int) (rd : rewrite_data) (trees : Nat) :
    Bool × rewrite_data :=
  if rd.carriers.any (fun c => c.any fun ct => ct.id == id) then (true, rd)
  else
    match place_carrier ⟨List.replicate trees none, trees, name, id⟩ rd.carriers with
    | none => (false, rd)
    | some cs => (true, { rd with carriers := cs })

/-- Modelled from the spec: the externals of `load_config` with the two functions above,
the default carrier named `default`, and for `SP_EMPTY_PREFIX` (declared in
`carrierroute.h`, not in this file) the spelling `null` of the title that
`save_route_data_recursor` writes for an empty prefix. -/
def spec_externals : Externals :=
  ⟨"default", "null", add_carrier_tree, add_route⟩

/-- Modelled from the spec: the forms in which the grammar engine behind `cfg_parse` (an
external library) takes the value of an option: the form of the record grammar, and
the same value with the quotes added or left out (the engine converts the text of a
value to the type of its option either way). -/
def accepted_forms : cfg_type → List String
  | .CFGT_INT => ["%i", "\"%i\""]
  | .CFGT_FLOAT => ["%f", "\"%f\""]
  | .CFGT_STR => ["\"%s\"", "%s"]

/-- Modelled from the spec: the option of `target_opts` that a line assigns, if it is an
assignment `<name> = <value>` to one of them. -/
def assigned_option (w : Write) : Option (String × cfg_type) :=
  target_opts.find? fun o =>
    (accepted_forms o.2).any (fun v => w.fmt == "\t\t\t" ++ o.1 ++ " = " ++ v ++ "\n")
      && arg_has_type o.2 w.arg

/-- Modelled from the spec: a target section after the assignment a line makes; `none`
when the line is no assignment to an option of `target_opts`. -/
def set_target_opt (t : cfg_target) (w : Write) : Option cfg_target :=
  match assigned_option w, w.arg with
  | some ("comment", _), .s v => some { t with comment := some v }
  | some ("strip", _), .i v => some { t with strip := v }
  | some ("rewrite_prefix", _), .s v => some { t with rewrite_prefix := some v }
  | some ("prob", _), .f v => some { t with prob := v }
  | some ("hash_index", _), .i v => some { t with hash_index := v }
  | some ("rewrite_suffix", _), .s v => some { t with rewrite_suffix := some v }
  | some ("status", _), .i v => some { t with status := v }
  | _, _ => none

/-- Where the parser is in the record: at top level, or inside an open `domain`,
`prefix` or `target` section, with the sections closed so far. -/
inductive parse_state where
  | top (ds : List cfg_domain)
  | in_domain (ds : List cfg_domain) (d : cfg_domain)
  | in_pfx (ds : List cfg_domain) (d : cfg_domain) (p : cfg_prefix)
  | in_target (ds : List cfg_domain) (d : cfg_domain) (p : cfg_prefix) (t : cfg_target)

/-- Modelled from the spec: one line taken by the grammar engine behind `cfg_parse` (an
external library), for the sections and options that `parse_config` declares, on lines
laid out as `save_config` writes them. A section opens with its defaults from the
option tables (`max_locdb` -1, `status` 1, the other numbers 0, the strings NULL).
The text of numbers and strings is not re-read: a line hands over the argument it
was written with. A line that fits nowhere is a parse error. -/
def cfg_step : parse_state → Write → Option parse_state
  | .top ds, w =>
    match w.arg with
    | .s title => if w.fmt = "domain %s \x7b\n" then some (.in_domain ds ⟨title, []⟩) else none
    | _ => none
  | .in_domain ds d, w =>
    match w.arg with
    | .s title =>
      if w.fmt = "\tprefix %s \x7b\n" then some (.in_pfx ds d ⟨title, [], -1⟩) else none
    | .none => if w.fmt = "\x7d\n\n" then some (.top (ds ++ [d])) else none
    | _ => none
  | .in_pfx ds d p, w =>
    match w.arg with
    | .s title =>
      if w.fmt = "\t\ttarget %s \x7b\n" then
        some (.in_target ds d p ⟨title, none, 0, none, ⟨0⟩, 0, none, 1⟩)
      else none
    | .i v =>
      if w.fmt = "\t\tmax_locdb = %i\n\n" then some (.in_pfx ds d { p with max_locdb := v })
      else none
    | .none =>
      if w.fmt = "\t\x7d\n" then
        some (.in_domain ds { d with prefixes := d.prefixes ++ [p] })
      else none
    | _ => none
  | .in_target ds d p t, w =>
    if w = ⟨"\t\t\x7d\n", .none⟩ then
      some (.in_pfx ds d { p with targets := p.targets ++ [t] })
    else (set_target_opt t w).map fun t1 => .in_target ds d p t1

/-- Modelled from the spec: the lines of a file taken one after the other. -/
def cfg_steps : parse_state → List Write → Option parse_state
  | st, [] => some st
  | st, w :: rest =>
    match cfg_step st w with
    | none => none
    | some st1 => cfg_steps st1 rest

/-- Modelled from the spec: the library function `cfg_parse` on the lines of a file: the
record, or `none` for a parse error (also when a section is left open at the end). -/
def cfg_parse (ws : List Write) : Option cfg_t :=
  match cfg_steps (.top []) ws with
  | some (.top ds) => some ⟨ds⟩
  | _ => none

/-- The function `parse_config`: NULL when `config_file` cannot be read (`file` is
`none`) or does not parse. -/
def parse_config (file : Option (List Write)) : Option cfg_t :=
  match file with
  | none => none
  | some ws => cfg_parse ws

/-- Saving a route data to `config_file` and loading the file into the route data
`fresh`: `save_config`, then `parse_config` on what was written, then `load_config`. -/
def save_then_load (E : Externals) (rd fresh : rewrite_data) : Option (Int × rewrite_data) :=
  match save_config rd true with
  | some (_, some out) => load_config E (parse_config (some out)) true fresh
  | _ => none

/-! ## Sample data -/

/-- A rule for prefix `49` with every optional field set. -/
def sample_rule : route_rule :=
  ⟨"49", "gw1", ⟨0⟩, 0, 1, 2, "0", "x", "c"⟩

/-- The trie that holds `sample_rule` at the node of prefix `49`, every node with its
ten child slots. -/
def sample_trie : route_tree_item :=
  .mk [] (-1) [none, none, none, none,
    some (.mk [] (-1) [none, none, none, none, none, none, none, none, none,
      some (.mk [sample_rule] 3 [none, none, none, none, none, none, none, none, none, none])]),
    none, none, none, none, none]

/-- The domain tree `d` with `sample_trie`. -/
def sample_tree : route_tree :=
  ⟨"d", sample_trie⟩

/-- The default carrier with the one domain tree `sample_tree`. -/
def sample_carrier : carrier_tree :=
  ⟨[some sample_tree], 1, "default", 1⟩

/-- The route data with the default carrier alone. -/
def sample_data : rewrite_data :=
  ⟨[some sample_carrier], 1⟩

/-- A record with one domain `d`, one prefix `49` and one target `gw1` that sets
`strip`, `rewrite_prefix`, `rewrite_suffix` and `comment`: the record `load_config` builds
`sample_data` from. -/
def sample_cfg : cfg_t :=
  ⟨[⟨"d", [⟨"49", [⟨"gw1", some "c", 2, some "0", ⟨0⟩, 0, some "x", 1⟩], 3⟩]⟩]⟩

/-- The rule `sample_rule` without its `rewrite_suffix`. -/
def plain_rule : route_rule :=
  { sample_rule with local_suffix := "" }

/-- The route data `sample_data` with `plain_rule` for `sample_rule`. -/
def plain_data : rewrite_data :=
  ⟨[some ⟨[some ⟨"d",
    .mk [] (-1) [none, none, none, none,
      some (.mk [] (-1) [none, none, none, none, none, none, none, none, none,
        some (.mk [plain_rule] 3 [none, none, none, none, none, none, none, none, none, none])]),
      none, none, none, none, none]⟩], 1, "default", 1⟩], 1⟩

/-- A rule with an empty prefix and an empty host. -/
def catchall_rule : route_rule :=
  ⟨"", "", ⟨0⟩, 0, 1, 0, "", "", ""⟩

/-- The record `sample_cfg` with a `strip` beyond the range of `int`. -/
def wide_cfg : cfg_t :=
  ⟨[⟨"d", [⟨"49", [⟨"gw1", some "c", 4294967298, some "0", ⟨0⟩, 0, some "x", 1⟩], 3⟩]⟩]⟩

/-- A record with a sentinel prefix holding a sentinel target, spelled in two letter
cases, followed by the prefix `49` with the target `gw1`. -/
def mixed_cfg : cfg_t :=
  ⟨[⟨"d", [⟨"Null", [⟨"NULL", none, 0, none, ⟨0⟩, 0, none, 1⟩], -1⟩,
           ⟨"49", [⟨"gw1", some "c", 2, some "0", ⟨0⟩, 0, some "x", 1⟩], 3⟩]⟩]⟩

/-- The route data with `catchall_rule` at the root and `sample_rule` at prefix `49`. -/
def mixed_data : rewrite_data :=
  ⟨[some ⟨[some ⟨"d",
    .mk [catchall_rule] (-1) [none, none, none, none,
      some (.mk [] (-1) [none, none, none, none, none, none, none, none, none,
        some (.mk [sample_rule] 3
          [none, none, none, none, none, none, none, none, none, none])]),
      none, none, none, none, none]⟩], 1, "default", 1⟩], 1⟩

/-- A record whose prefix `49` names the target `gw1` twice. -/
def dup_cfg : cfg_t :=
  ⟨[⟨"d", [⟨"49", [⟨"gw1", some "c", 2, some "0", ⟨0⟩, 0, some "x", 1⟩,
                    ⟨"gw1", none, 0, none, ⟨0⟩, 0, none, 1⟩], 3⟩]⟩]⟩

/-! ## Theorems -/

theorem save_rule_list_eq (l : List route_rule) :
    save_rule_list l = (l.map save_rule).flatten := by
  induction l with
  | nil => rfl
  | cons rr next ih => simp [save_rule_list, ih]

theorem blocks_of_append (a b : List route_tree_item) :
    blocks_of (a ++ b) = blocks_of a ++ blocks_of b := by
  simp [blocks_of]

theorem save_rules_of_node_eq (rl : List route_rule) (m : Int)
    (ns : List (Option route_tree_item)) :
    save_rules_of_node rl m = blocks_of [.mk rl m ns] := by
  cases rl with
  | nil => simp [save_rules_of_node, blocks_of, route_tree_item.rule_list]
  | cons rr next =>
    simp [save_rules_of_node, blocks_of, route_tree_item.rule_list, prefix_block,
      route_tree_item.max_locdb, save_rule_list_eq]

mutual
theorem save_route_data_recursor_eq :
    (rt : route_tree_item) → save_route_data_recursor rt = (0, blocks_of (preorder rt))
  | .mk rl m ns => by
    rw [save_route_data_recursor, preorder, save_nodes_eq 10 ns]
    have h := blocks_of_append [.mk rl m ns] (preorder_slots 10 ns)
    simp only [List.singleton_append] at h
    simp [h, save_rules_of_node_eq rl m ns]
theorem save_nodes_eq :
    (left : Nat) → (ns : List (Option route_tree_item)) →
      save_nodes left ns = (0, blocks_of (preorder_slots left ns))
  | 0, _ => by simp [save_nodes, preorder_slots, blocks_of]
  | _ + 1, [] => by simp [save_nodes, preorder_slots, blocks_of]
  | left + 1, none :: rest => by
    rw [save_nodes, preorder_slots, save_nodes_eq left rest]
  | left + 1, some child :: rest => by
    rw [save_nodes, preorder_slots, save_route_data_recursor_eq child, save_nodes_eq left rest]
    simp [blocks_of_append]
end

theorem string_length_ne_zero (s : String) : s.length ≠ 0 ↔ s ≠ "" := by
  rw [Ne, Ne, String.length, List.length_eq_zero, String.ext_iff]

theorem save_rule_is_target_block (rr : route_rule) :
    is_target_block rr (save_rule rr) = true := by
  have hh : target_title rr = if rr.host = "" then "NULL" else rr.host := by
    unfold target_title
    by_cases e : rr.host = ""
    · simp [e]
    · simp [e, (string_length_ne_zero rr.host).2 e]
  have o1 : ∀ a, is_option_line ⟨"\t\t\tprob = %f\n", a⟩ = true := fun _ => rfl
  have o2 : ∀ a, is_option_line ⟨"\t\t\thash_index = %i\n", a⟩ = true := fun _ => rfl
  have o3 : ∀ a, is_option_line ⟨"\t\t\tstatus = %i\n", a⟩ = true := fun _ => rfl
  have o4 : ∀ a, is_option_line ⟨"\t\t\tstrip = \"%i\"\n", a⟩ = true := fun _ => rfl
  have o5 : ∀ a, is_option_line ⟨"\t\t\trewrite_prefix = \"%s\"\n", a⟩ = true := fun _ => rfl
  have o6 : ∀ a, is_option_line ⟨"\t\t\trewrite_suffix: \"%s\"\n", a⟩ = true := fun _ => rfl
  have o7 : ∀ a, is_option_line ⟨"\t\t\tcomment = \"%s\"\n", a⟩ = true := fun _ => rfl
  unfold is_target_block save_rule
  rw [hh]
  by_cases c1 : rr.strip > 0 <;> by_cases c2 : rr.local_prefix.length ≠ 0 <;>
    by_cases c3 : rr.local_suffix.length ≠ 0 <;> by_cases c4 : rr.comment.length ≠ 0 <;>
    simp [c1, c2, c3, c4, o1, o2, o3, o4, o5, o6, o7, List.dropLast]

/-- C3: the calls issued for a route tree are, in pre-order (a node, then its children in
digit order 0 to 9), the prefix blocks of the nodes with a non-empty rule list, a node
with no rule giving no block while its children are still visited; a prefix block
holds the node's `max_locdb` and, in list order, the calls made for each rule, which for
every rule are one target block of that rule; the return value is 0. -/
theorem save_route_data_recursor_preorder (rt : route_tree_item) :
    save_route_data_recursor rt =
      (0, (((preorder rt).filter fun t => !t.rule_list.isEmpty).map prefix_block).flatten) ∧
    ∀ rr : route_rule, is_target_block rr (save_rule rr) = true :=
  ⟨save_route_data_recursor_eq rt, save_rule_is_target_block⟩

/-- C4: for a rule with `strip >= 0` the target block holds the target line (the host,
or the sentinel for an empty host), `prob`, `hash_index` and `status` always, and the
lines of `strip`, `rewrite_prefix`, `rewrite_suffix` and `comment` exactly when the field
is not its default (`strip` not 0, the string not empty). -/
theorem save_rule_content (rr : route_rule) (h : 0 ≤ rr.strip) :
    save_rule rr =
      [⟨"\t\ttarget %s \x7b\n", .s (if rr.host = "" then "NULL" else rr.host)⟩,
       ⟨"\t\t\tprob = %f\n", .f rr.prob⟩,
       ⟨"\t\t\thash_index = %i\n", .i rr.hash_index⟩,
       ⟨"\t\t\tstatus = %i\n", .i rr.status⟩]
      ++ (if rr.strip ≠ 0 then [⟨"\t\t\tstrip = \"%i\"\n", .i rr.strip⟩] else [])
      ++ (if rr.local_prefix ≠ "" then
            [⟨"\t\t\trewrite_prefix = \"%s\"\n", .s rr.local_prefix⟩] else [])
      ++ (if rr.local_suffix ≠ "" then
            [⟨"\t\t\trewrite_suffix: \"%s\"\n", .s rr.local_suffix⟩] else [])
      ++ (if rr.comment ≠ "" then [⟨"\t\t\tcomment = \"%s\"\n", .s rr.comment⟩] else [])
      ++ [⟨"\t\t\x7d\n", .none⟩] := by
  have hs : rr.strip > 0 ↔ rr.strip ≠ 0 := by omega
  have hh : target_title rr = if rr.host = "" then "NULL" else rr.host := by
    unfold target_title
    by_cases e : rr.host = ""
    · simp [e]
    · simp [e, (string_length_ne_zero rr.host).2 e]
  unfold save_rule
  simp only [hs, hh, string_length_ne_zero]

theorem save_rule_content_witness :
    (0 : Int) ≤ (⟨"49", "", ⟨0⟩, 3, 1, 2, "", "", "c"⟩ : route_rule).strip ∧
    save_rule ⟨"49", "", ⟨0⟩, 3, 1, 2, "", "", "c"⟩ =
      [⟨"\t\ttarget %s \x7b\n", .s "NULL"⟩,
       ⟨"\t\t\tprob = %f\n", .f ⟨0⟩⟩,
       ⟨"\t\t\thash_index = %i\n", .i 3⟩,
       ⟨"\t\t\tstatus = %i\n", .i 1⟩,
       ⟨"\t\t\tstrip = \"%i\"\n", .i 2⟩,
       ⟨"\t\t\tcomment = \"%s\"\n", .s "c"⟩,
       ⟨"\t\t\x7d\n", .none⟩] :=
  ⟨by decide, by
    rw [save_rule_content ⟨"49", "", ⟨0⟩, 3, 1, 2, "", "", "c"⟩ (by decide)]
    decide⟩

/-- C5: the option lines written for the rule with `strip` 2, `rewrite_prefix` `0`,
`rewrite_suffix` `x` and comment `c`, each with whether it is a line `<name> = <value>` of
the record grammar: the `strip` line (a quoted integer) and the `rewrite_suffix` line (a
colon for the equals sign) are not. -/
theorem save_rule_lines_outside_grammar :
    (option_lines (save_rule ⟨"49", "gw1", ⟨0⟩, 0, 1, 2, "0", "x", "c"⟩)).map
        (fun w => (w.fmt, grammar_option_line w)) =
      [("\t\t\tprob = %f\n", true),
       ("\t\t\thash_index = %i\n", true),
       ("\t\t\tstatus = %i\n", true),
       ("\t\t\tstrip = \"%i\"\n", false),
       ("\t\t\trewrite_prefix = \"%s\"\n", true),
       ("\t\t\trewrite_suffix: \"%s\"\n", false),
       ("\t\t\tcomment = \"%s\"\n", true)] := by
  decide

theorem add_all_ret (E : Externals) (l : List route_args) (rd : rewrite_data) :
    (add_all E l rd).1 = 0 ∨ (add_all E l rd).1 = -1 := by
  induction l generalizing rd with
  | nil => simp [add_all]
  | cons a rest ih =>
    simp only [add_all]
    split
    · simp
    · exact ih _

theorem add_all_append (E : Externals) (l1 l2 : List route_args) (rd : rewrite_data) :
    add_all E (l1 ++ l2) rd =
      if (add_all E l1 rd).1 < 0 then add_all E l1 rd else add_all E l2 (add_all E l1 rd).2 := by
  induction l1 generalizing rd with
  | nil => simp [add_all]
  | cons a rest ih =>
    simp only [List.cons_append, add_all]
    split
    · simp
    · exact ih _

theorem long_to_int_eq_as_int (v : Int) : long_to_int v = as_int v := by
  unfold long_to_int as_int Int.bmod
  simp only []
  split <;> omega

theorem as_int_of_range (v : Int) (h1 : -2147483648 ≤ v) (h2 : v < 2147483648) :
    as_int v = v := by
  unfold as_int Int.bmod
  simp only []
  split <;> omega

theorem load_targets_eq (E : Externals) (domain : String) (p : Option String) (m : Int)
    (ts : List cfg_target) (rd : rewrite_data) :
    load_targets E domain p m ts rd =
      add_all E (ts.map fun t =>
        (⟨1, domain, p, m, t.prob, null_if_sentinel E t.title,
          as_int t.strip, t.rewrite_prefix, t.rewrite_suffix, as_int t.status,
          as_int t.hash_index, t.comment⟩ : route_args)) rd := by
  induction ts generalizing rd with
  | nil => simp [load_targets, add_all]
  | cons t rest ih =>
    simp only [load_targets, List.map_cons, add_all, long_to_int_eq_as_int]
    split
    · rfl
    · exact ih _

theorem load_prefixes_eq (E : Externals) (domain : String) (ps : List cfg_prefix)
    (rd : rewrite_data) :
    load_prefixes E domain ps rd =
      add_all E (ps.map fun p =>
        p.targets.map fun t =>
          (⟨1, domain, null_if_sentinel E p.title, as_int p.max_locdb, t.prob,
            null_if_sentinel E t.title, as_int t.strip, t.rewrite_prefix, t.rewrite_suffix,
            as_int t.status, as_int t.hash_index, t.comment⟩ : route_args)).flatten rd := by
  induction ps generalizing rd with
  | nil => simp [load_prefixes, add_all]
  | cons p rest ih =>
    simp only [load_prefixes, List.map_cons, List.flatten_cons, add_all_append,
      load_targets_eq, long_to_int_eq_as_int]
    split
    · rfl
    · exact ih _

theorem load_domains_eq (E : Externals) (ds : List cfg_domain) (rd : rewrite_data) :
    load_domains E ds rd = add_all E (routes_of_cfg E ⟨ds⟩) rd := by
  induction ds generalizing rd with
  | nil => simp [load_domains, add_all, routes_of_cfg]
  | cons d rest ih =>
    simp only [routes_of_cfg] at ih
    simp only [load_domains, routes_of_cfg, List.map_cons, List.flatten_cons, add_all_append,
      load_prefixes_eq, null_if_sentinel]
    split
    · rfl
    · exact ih _

theorem add_all_foldl (E : Externals) (l : List route_args) (rd rd1 : rewrite_data)
    (h : add_all E l rd = (0, rd1)) :
    rd1 = l.foldl (fun s a => (E.add_route s a).2) rd := by
  induction l generalizing rd with
  | nil =>
    simp [add_all] at h
    simp [h]
  | cons a rest ih =>
    simp only [add_all] at h
    split at h
    · simp at h
    · simpa using ih _ h

theorem add_all_fails (E : Externals) (l : List route_args) (rd : rewrite_data)
    (h : (add_all E l rd).1 = -1) :
    ∃ pre a post s, l = pre ++ a :: post ∧ add_all E pre rd = (0, s) ∧
      (E.add_route s a).1 < 0 ∧ (add_all E l rd).2 = (E.add_route s a).2 := by
  induction l generalizing rd with
  | nil => simp [add_all] at h
  | cons a rest ih =>
    by_cases hneg : (E.add_route rd a).1 < 0
    · exact ⟨[], a, rest, rd, rfl, rfl, hneg, by simp [add_all, hneg]⟩
    · simp only [add_all, hneg, if_false] at h ⊢
      obtain ⟨pre, b, post, s, hl, hp, hb, hs⟩ := ih _ h
      exact ⟨a :: pre, b, post, s, by simp [hl], by simp [add_all, hneg, hp], hb, hs⟩

theorem add_all_fails_of (E : Externals) (pre post : List route_args) (a : route_args)
    (rd s : rewrite_data) (hp : add_all E pre rd = (0, s)) (ha : (E.add_route s a).1 < 0) :
    add_all E (pre ++ a :: post) rd = (-1, (E.add_route s a).2) := by
  rw [add_all_append, hp]
  simp [add_all, ha]

theorem load_config_calls (E : Externals) (cfg : cfg_t) (shm_malloc_ok : Bool)
    (rd rd1 : rewrite_data)
    (h : load_config E (some cfg) shm_malloc_ok rd = some (0, rd1)) :
    ∃ rd0 rd2,
      E.add_carrier_tree E.default_tree 1 { rd with carriers := [none], tree_num := 1 }
        cfg.domains.length = (true, rd0) ∧
      memset_trees rd0 cfg.domains.length = some rd2 ∧
      add_all E (routes_of_cfg E cfg) rd2 = (0, rd1) ∧
      rd1 = (routes_of_cfg E cfg).foldl (fun s a => (E.add_route s a).2) rd2 := by
  simp only [load_config] at h
  split at h
  · simp at h
  · split at h
    · simp at h
    · rename_i hc
      split at h
      · cases h
      · rename_i rd2 hm
        simp only [Option.some.injEq] at h
        rw [load_domains_eq] at h
        refine ⟨_, rd2, ?_, hm, h, add_all_foldl E _ _ _ h⟩
        apply Prod.ext
        · simpa using hc
        · rfl

theorem add_route_one_carrier (rd : rewrite_data) (a : route_args) (ct : carrier_tree)
    (h : rd.carriers = [some ct]) :
    (add_route rd a).2.tree_num = rd.tree_num ∧
    ∃ ct1, (add_route rd a).2.carriers = [some ct1] ∧ ct1.id = ct.id ∧ ct1.name = ct.name := by
  simp only [add_route, h, add_route_to_carrier]
  by_cases hid : ct.id = a.carrier_id
  · simp only [if_pos hid]
    cases add_route_to_domain
        ⟨a.scan_prefix.getD "", a.rewrite_hostpart.getD "", a.prob, a.hash_index, a.status,
          a.strip, a.rewrite_local_prefix.getD "", a.rewrite_local_suffix.getD "",
          a.comment.getD ""⟩ a.max_locdb a.domain ct.trees with
    | none => exact ⟨rfl, ct, h, rfl, rfl⟩
    | some ts => exact ⟨rfl, _, rfl, rfl, rfl⟩
  · simp only [if_neg hid, Option.map_none']
    exact ⟨trivial, ct, h, rfl, rfl⟩

theorem add_all_one_carrier (E : Externals) (hE : E.add_route = add_route)
    (l : List route_args) (rd : rewrite_data) (ct : carrier_tree)
    (h : rd.carriers = [some ct]) :
    (add_all E l rd).2.tree_num = rd.tree_num ∧
    ∃ ct1, (add_all E l rd).2.carriers = [some ct1] ∧ ct1.id = ct.id ∧ ct1.name = ct.name := by
  induction l generalizing rd ct with
  | nil => exact ⟨rfl, ct, h, rfl, rfl⟩
  | cons a rest ih =>
    obtain ⟨ht, ct1, hc1, hi1, hn1⟩ := add_route_one_carrier rd a ct h
    simp only [add_all, hE]
    split
    · exact ⟨ht, ct1, hc1, hi1, hn1⟩
    · obtain ⟨ht2, ct2, hc2, hi2, hn2⟩ := ih (add_route rd a).2 ct1 hc1
      exact ⟨ht2.trans ht, ct2, hc2, hi2.trans hi1, hn2.trans hn1⟩

/-- C6 as stated fails on a record with an integer option beyond the range of `int`:
`load_config` returns 0 on the record whose target sets `strip` to 4294967298 and the
route it adds has `strip` 2, the value as the `int` variable holds it. -/
theorem load_config_converts_wide_option :
    load_config spec_externals (some wide_cfg) true ⟨[], 0⟩ = some (0, sample_data) ∧
    (wide_cfg.domains.map fun d => d.prefixes.map fun p => p.targets.map fun t => t.strip) =
      [[[4294967298]]] ∧
    (preorder sample_trie).map (fun t => t.rule_list.map route_rule.strip) = [[], [], [2]] :=
  ⟨rfl, rfl, rfl⟩

/-- C6, amended: when `load_config` returns 0 on a parsed record, it has made the carrier
array of one slot with `tree_num` 1, called `add_carrier_tree` once, for the default
carrier with id 1 and one tree slot per domain section, and then added exactly the
routes of the record, one per target section in document order, each with carrier id
1, the domain title, the prefix title (none for the sentinel), the `max_locdb` of the
prefix and the options of the target, the integer ones taken as `int` (the value
itself when it lies in the range of `int`); every one of these calls succeeded. With
`add_carrier_tree` and `add_route` as the spec describes them the route data ends with
`tree_num` 1 and the default carrier, id 1, as its one carrier. -/
theorem load_config_builds (E : Externals) (cfg : cfg_t) (shm_malloc_ok : Bool)
    (rd rd1 : rewrite_data)
    (h : load_config E (some cfg) shm_malloc_ok rd = some (0, rd1)) :
    (∃ rd0 rd2,
      E.add_carrier_tree E.default_tree 1 { rd with carriers := [none], tree_num := 1 }
        cfg.domains.length = (true, rd0) ∧
      memset_trees rd0 cfg.domains.length = some rd2 ∧
      add_all E (routes_of_cfg E cfg) rd2 = (0, rd1) ∧
      rd1 = (routes_of_cfg E cfg).foldl (fun s a => (E.add_route s a).2) rd2) ∧
    (∀ v : Int, -2147483648 ≤ v → v < 2147483648 → as_int v = v) ∧
    (∀ rd3 : rewrite_data,
      load_config ⟨E.default_tree, E.SP_EMPTY_PREFIX, add_carrier_tree, add_route⟩ (some cfg)
        shm_malloc_ok rd = some (0, rd3) →
      rd3.tree_num = 1 ∧
      ∃ ct, rd3.carriers = [some ct] ∧ ct.id = 1 ∧ ct.name = E.default_tree) := by
  refine ⟨load_config_calls E cfg shm_malloc_ok rd rd1 h, as_int_of_range, ?_⟩
  intro rd3 h3
  obtain ⟨rd0, rd2, h0, h2, ha, _⟩ := load_config_calls _ cfg shm_malloc_ok rd rd3 h3
  have e0 : rd0 = ⟨[some ⟨List.replicate cfg.domains.length none, cfg.domains.length,
      E.default_tree, 1⟩], 1⟩ := by
    have := congrArg Prod.snd h0
    simp [add_carrier_tree, place_carrier] at this
    exact this.symm
  subst e0
  have e2 : rd2.tree_num = 1 ∧ ∃ ct, rd2.carriers = [some ct] ∧ ct.id = 1 ∧
      ct.name = E.default_tree := by
    simp [memset_trees] at h2
    subst h2
    exact ⟨rfl, _, rfl, rfl, rfl⟩
  obtain ⟨ht2, ct2, hc2, hi2, hn2⟩ := e2
  obtain ⟨ht, ct1, hc1, hi1, hn1⟩ :=
    add_all_one_carrier ⟨E.default_tree, E.SP_EMPTY_PREFIX, add_carrier_tree, add_route⟩ rfl
      (routes_of_cfg ⟨E.default_tree, E.SP_EMPTY_PREFIX, add_carrier_tree, add_route⟩ cfg)
      rd2 ct2 hc2
  rw [ha] at ht hc1
  exact ⟨ht.trans ht2, ct1, hc1, hi1.trans hi2, hn1.trans hn2⟩

theorem load_config_builds_witness :
    load_config spec_externals (some mixed_cfg) true ⟨[], 0⟩ = some (0, mixed_data) ∧
    routes_of_cfg spec_externals mixed_cfg =
      [⟨1, "d", none, -1, ⟨0⟩, none, 0, none, none, 1, 0, none⟩,
       ⟨1, "d", some "49", 3, ⟨0⟩, some "gw1", 2, some "0", some "x", 1, 0, some "c"⟩] ∧
    add_all spec_externals (routes_of_cfg spec_externals mixed_cfg)
      ⟨[some ⟨[none], 1, "default", 1⟩], 1⟩ = (0, mixed_data) ∧
    mixed_data.tree_num = 1 ∧
    ∃ ct, mixed_data.carriers = [some ct] ∧ ct.id = 1 ∧ ct.name = "default" := by
  have w := load_config_builds spec_externals mixed_cfg true ⟨[], 0⟩ mixed_data rfl
  obtain ⟨⟨rd0, rd2, h0, h2, ha, _⟩, _, h1⟩ := w
  have e0 : rd0 = ⟨[some ⟨[none], 1, "default", 1⟩], 1⟩ := (congrArg Prod.snd h0).symm
  have e2 : rd2 = ⟨[some ⟨[none], 1, "default", 1⟩], 1⟩ := by
    rw [e0] at h2
    exact (Option.some.inj h2).symm
  rw [e2] at ha
  exact ⟨rfl, rfl, ha, h1 mixed_data rfl⟩

/-- C7: `load_config` returns 0 or -1, and -1 exactly when parsing failed, or the
carrier array could not be allocated, or `add_carrier_tree` failed, or some `add_route`
failed; in the last case the routes before the first failing one were added, the
failing call was made, and no route after it was added. -/
theorem load_config_fails_iff (E : Externals) (parsed : Option cfg_t) (shm_malloc_ok : Bool)
    (rd : rewrite_data) (r : Int × rewrite_data)
    (h : load_config E parsed shm_malloc_ok rd = some r) :
    (r.1 = 0 ∨ r.1 = -1) ∧
    (r.1 = -1 ↔
      parsed = none ∨ shm_malloc_ok = false ∨
      ∃ cfg, parsed = some cfg ∧
        ((E.add_carrier_tree E.default_tree 1 { rd with carriers := [none], tree_num := 1 }
            cfg.domains.length).1 = false ∨
         ∃ rd2 pre a post s,
          memset_trees (E.add_carrier_tree E.default_tree 1
            { rd with carriers := [none], tree_num := 1 } cfg.domains.length).2
            cfg.domains.length = some rd2 ∧
          routes_of_cfg E cfg = pre ++ a :: post ∧
          add_all E pre rd2 = (0, s) ∧
          (E.add_route s a).1 < 0 ∧
          r.2 = (E.add_route s a).2)) := by
  cases parsed with
  | none =>
    simp only [load_config, Option.some.injEq] at h
    subst h
    simp
  | some cfg =>
    cases shm_malloc_ok with
    | false =>
      simp only [load_config, if_true, Option.some.injEq] at h
      subst h
      simp
    | true =>
      simp only [load_config, Bool.true_eq_false, if_false] at h
      by_cases hc : (E.add_carrier_tree E.default_tree 1
          { rd with carriers := [none], tree_num := 1 } cfg.domains.length).1 = false
      · simp only [hc, if_true, Option.some.injEq] at h
        subst h
        simp [hc]
      · simp only [hc, Bool.true_eq_false, if_false] at h
        cases hm : memset_trees (E.add_carrier_tree E.default_tree 1
            { rd with carriers := [none], tree_num := 1 } cfg.domains.length).2
            cfg.domains.length with
        | none => simp [hm] at h
        | some rd2 =>
          simp only [hm, Option.some.injEq] at h
          rw [load_domains_eq] at h
          subst h
          refine ⟨add_all_ret E _ rd2, ?_⟩
          constructor
          · intro hf
            obtain ⟨pre, a, post, s, hl, hp, ha, hs⟩ := add_all_fails E _ rd2 hf
            exact Or.inr (Or.inr ⟨cfg, rfl, Or.inr ⟨rd2, pre, a, post, s, hm, hl, hp, ha, hs⟩⟩)
          · intro hrhs
            rcases hrhs with hn | hn | ⟨cfg1, hcfg, hn | ⟨rd3, pre, a, post, s, hm3, hl, hp, ha, _⟩⟩
            · cases hn
            · cases hn
            · cases hcfg
              exact absurd hn hc
            · cases hcfg
              rw [hm] at hm3
              cases hm3
              rw [hl, add_all_fails_of E pre post a rd2 s hp ha]

theorem load_config_fails_iff_witness :
    load_config spec_externals (some dup_cfg) true ⟨[], 0⟩ = some (-1, sample_data) ∧
    ((((-1 : Int), sample_data).1 = 0 ∨ ((-1 : Int), sample_data).1 = -1) ∧
     (((-1 : Int), sample_data).1 = -1 ↔
      some dup_cfg = none ∨ true = false ∨
      ∃ cfg, some dup_cfg = some cfg ∧
        ((spec_externals.add_carrier_tree spec_externals.default_tree 1
            { (⟨[], 0⟩ : rewrite_data) with carriers := [none], tree_num := 1 }
            cfg.domains.length).1 = false ∨
         ∃ rd2 pre a post s,
          memset_trees (spec_externals.add_carrier_tree spec_externals.default_tree 1
            { (⟨[], 0⟩ : rewrite_data) with carriers := [none], tree_num := 1 }
            cfg.domains.length).2
            cfg.domains.length = some rd2 ∧
          routes_of_cfg spec_externals cfg = pre ++ a :: post ∧
          add_all spec_externals pre rd2 = (0, s) ∧
          (spec_externals.add_route s a).1 < 0 ∧
          ((-1 : Int), sample_data).2 = (spec_externals.add_route s a).2))) :=
  ⟨rfl, load_config_fails_iff spec_externals (some dup_cfg) true ⟨[], 0⟩
      (-1, sample_data) rfl⟩

/-- C8 as stated fails: on the record that names the target `gw1` twice under prefix
`49`, `load_config` returns -1 and the route data, empty on entry (no carrier array,
`tree_num` 0), is left with the carrier array, `tree_num` 1, the default carrier and
the first route; and when the allocation fails, a route data that held a carrier
array on entry is left with a NULL one. -/
theorem load_config_failure_keeps_partial_build :
    load_config spec_externals (some dup_cfg) true ⟨[], 0⟩ = some (-1, sample_data) ∧
    sample_data.tree_num = 1 ∧
    sample_data.carriers = [some sample_carrier] ∧
    sample_carrier.trees = [some ⟨"d", sample_trie⟩] ∧
    (preorder sample_trie).map route_tree_item.rule_list = [[], [], [sample_rule]] ∧
    load_config spec_externals (some sample_cfg) false sample_data = some (-1, ⟨[], 1⟩) :=
  ⟨rfl, rfl, rfl, rfl, rfl, rfl⟩

/-- C8, amended: when `load_config` returns -1 the route data is unchanged if parsing
failed. Otherwise it is not restored: after a failed allocation its carrier array is
NULL and nothing else changed; after a failed `add_carrier_tree` it is what that call
left of the one-slot array with `tree_num` 1; after a failed `add_route` it is what the
failing call left of the routes added before it. -/
theorem load_config_failure_state (E : Externals) (parsed : Option cfg_t)
    (shm_malloc_ok : Bool) (rd : rewrite_data) (r : Int × rewrite_data)
    (h : load_config E parsed shm_malloc_ok rd = some r) (hr : r.1 = -1) :
    (parsed = none → r.2 = rd) ∧
    (parsed ≠ none → shm_malloc_ok = false → r.2 = { rd with carriers := [] }) ∧
    (∀ cfg, parsed = some cfg → shm_malloc_ok = true →
      ((E.add_carrier_tree E.default_tree 1 { rd with carriers := [none], tree_num := 1 }
          cfg.domains.length).1 = false →
        r.2 = (E.add_carrier_tree E.default_tree 1
          { rd with carriers := [none], tree_num := 1 } cfg.domains.length).2) ∧
      ((E.add_carrier_tree E.default_tree 1 { rd with carriers := [none], tree_num := 1 }
          cfg.domains.length).1 = true →
        ∃ rd2 pre a post s,
          memset_trees (E.add_carrier_tree E.default_tree 1
            { rd with carriers := [none], tree_num := 1 } cfg.domains.length).2
            cfg.domains.length = some rd2 ∧
          routes_of_cfg E cfg = pre ++ a :: post ∧
          add_all E pre rd2 = (0, s) ∧
          (E.add_route s a).1 < 0 ∧
          r.2 = (E.add_route s a).2)) := by
  refine ⟨?_, ?_, ?_⟩
  · intro hp
    subst hp
    simp only [load_config, Option.some.injEq] at h
    rw [← h]
  · intro hp hs
    subst hs
    cases parsed with
    | none => exact absurd rfl hp
    | some cfg =>
      simp only [load_config, if_true, Option.some.injEq] at h
      rw [← h]
  · intro cfg hp hs
    subst hp hs
    simp only [load_config, Bool.true_eq_false, if_false] at h
    constructor
    · intro hc
      simp only [hc, if_true, Option.some.injEq] at h
      rw [← h]
    · intro hc
      simp only [hc, Bool.true_eq_false, if_false] at h
      cases hm : memset_trees (E.add_carrier_tree E.default_tree 1
          { rd with carriers := [none], tree_num := 1 } cfg.domains.length).2
          cfg.domains.length with
      | none => simp [hm] at h
      | some rd2 =>
        simp only [hm, Option.some.injEq] at h
        rw [load_domains_eq] at h
        subst h
        obtain ⟨pre, a, post, s, hl, hp, ha, hs⟩ := add_all_fails E _ rd2 hr
        exact ⟨rd2, pre, a, post, s, rfl, hl, hp, ha, hs⟩

theorem load_config_failure_state_witness :
    (load_config spec_externals none true sample_data = some (-1, sample_data) ∧
      ((-1 : Int), sample_data).1 = -1 ∧
      ((-1 : Int), sample_data).2 = sample_data) ∧
    (load_config spec_externals (some dup_cfg) true ⟨[], 0⟩ = some (-1, sample_data) ∧
      ∃ rd2 pre a post s,
        memset_trees (spec_externals.add_carrier_tree spec_externals.default_tree 1
          { (⟨[], 0⟩ : rewrite_data) with carriers := [none], tree_num := 1 }
          dup_cfg.domains.length).2 dup_cfg.domains.length = some rd2 ∧
        routes_of_cfg spec_externals dup_cfg = pre ++ a :: post ∧
        add_all spec_externals pre rd2 = (0, s) ∧
        (spec_externals.add_route s a).1 < 0 ∧
        ((-1 : Int), sample_data).2 = (spec_externals.add_route s a).2) :=
  ⟨⟨rfl, rfl, (load_config_failure_state spec_externals none true sample_data
      (-1, sample_data) rfl rfl).1 rfl⟩,
   ⟨rfl, ((load_config_failure_state spec_externals (some dup_cfg) true ⟨[], 0⟩
      (-1, sample_data) rfl rfl).2.2 dup_cfg rfl rfl).2 rfl⟩⟩

/-- C1 fails on `sample_data`, which `load_config` builds from `sample_cfg`: `save_config`
writes its one rule with the line `rewrite_suffix: "x"`, the file does not parse, and
`load_config` on it returns -1 and builds nothing; the same route data without the
`rewrite_suffix` comes back as it was. -/
theorem roundtrip_fails_on_rewrite_suffix :
    load_config spec_externals (some sample_cfg) true ⟨[], 0⟩ = some (0, sample_data) ∧
    save_config sample_data true = some (0, some (domain_block sample_tree)) ∧
    (⟨"\t\t\trewrite_suffix: \"%s\"\n", .s "x"⟩ : Write) ∈ domain_block sample_tree ∧
    parse_config (some (domain_block sample_tree)) = none ∧
    save_then_load spec_externals sample_data ⟨[], 0⟩ = some (-1, ⟨[], 0⟩) ∧
    save_then_load spec_externals plain_data ⟨[], 0⟩ = some (0, plain_data) :=
  ⟨rfl, rfl, by decide, rfl, rfl, rfl⟩

end CarrierRoute
